import Mathlib

/-!
Shallow embedding of the timelinedb C library (timelinedb.c / timelinedb_simd.c /
timelinedb.h) and verification of the frozen claims about it.

Modelling conventions:
* C `uint32_t` arithmetic is `Nat` with explicit wraparound (`u32sub`, `% U32`)
  at the spots where the C code can underflow or overflow.
* C `double` / `float` arithmetic is modelled with exact rationals (`Rat`); the
  doc comment of each affected definition records the spots where the C rounding
  matters.  All concrete traces proved below only pass through dyadic values
  (0, 0.5, small integers scaled by powers of two and ten) on which the C
  `double` computation is exact, so the rational model coincides with the code.
* A C out-of-range `double` -> unsigned conversion (undefined behaviour) is
  modelled as truncation followed by wraparound, the behaviour of the x86/ARM
  builds the Makefile targets.
* Buffers are value records; `NULL` pointers are `Option.none`; a byte region is
  the list of its typed elements (int8 values for 8-bit buffers, int16 lane
  values for the 8x16-bit SIMD layout).  Reads the C never performs in the
  verified traces (out-of-bounds reads) default to 0.
-/

/-- Modulus of C `uint32_t` arithmetic. -/
def U32 : Nat := 4294967296

/-- C `uint32_t` subtraction `a - b` (wraps on underflow), for `a b < U32`. -/
def u32sub (a b : Nat) : Nat := (a + U32 - b) % U32

/-- C cast `(int16_t)x` of an integer: wraparound into `[-32768, 32768)`. -/
def toInt16 (x : Int) : Int := (x + 32768) % 65536 - 32768

/-- C cast `(int8_t)x` of an integer: wraparound into `[-128, 128)`. -/
def toInt8 (x : Int) : Int := (x + 128) % 256 - 128

/-- C `round(num / den)` for integer `num` and positive integer `den`:
round to nearest, halves away from zero.  Computed with Nat division on the
separated sign so that no division convention ambiguity arises. -/
def roundQ (num : Int) (den : Nat) : Int :=
  if 0 ≤ num then ((2 * num.toNat + den) / (2 * den) : Nat)
  else -(((2 * num.natAbs + den) / (2 * den) : Nat))

/-- C `round q` for a rational `q` (modelling a `double`): half away from zero. -/
def roundAway (q : ℚ) : Int :=
  if 0 ≤ q then Int.floor (q + 1 / 2) else -(Int.floor (-q + 1 / 2))

/-- C `pow(10.0, e)` for an integer exponent, as an exact rational. -/
def pow10q (e : Int) : ℚ :=
  if 0 ≤ e then ((10 : ℚ) ^ e.toNat) else 1 / ((10 : ℚ) ^ (-e).toNat)

/-- Enum `RawTimelineValueEnum` from timelinedb.h. -/
inductive RawTimelineValueEnum
  | TR_undefined
  | TR_digital1
  | TR_digital4
  | TR_digital8
  | TR_analog_sint8
  | TR_analog_float32
  | TR_analog_float64
  | TR_SIMD_sint16x8
  | TR_SIMD_sint24x8
  deriving DecidableEq, Repr

/-- Struct `SampleInterpInfo` from timelinedb.h: one interpolation-plan entry.
`idx0`, `idx1` are `uint32_t`; `frac`, `inv_frac` are `uint16_t`. -/
structure SampleInterpInfo where
  idx0 : Nat
  idx1 : Nat
  frac : Nat
  inv_frac : Nat
  deriving DecidableEq, Repr

/-- Struct `RawTimelineValuesBuf` from timelinedb.h.  `total_time_sec` is never
read or written by the embedded functions and is omitted.  `valueBuffer` holds
the typed elements of the owned region (see the file header); `sample_rate_info`
holds the stored `rate_ratio`; `prepared_data_src` holds the interpolation plan.
`none` models a `NULL` pointer. -/
structure RawTimelineValuesBuf where
  buffer_size : Nat
  nr_of_samples : Nat
  time_step : Nat
  time_exponent : Int
  nr_of_channels : Nat
  bitwidth : Nat
  bytes_per_sample : Nat
  value_type : RawTimelineValueEnum
  valueBuffer : Option (List Int)
  sample_rate_info : Option ℚ
  prepared_data_src : Option (List SampleInterpInfo)
  deriving DecidableEq, Repr

/-- The three heap regions a `RawTimelineValuesBuf` owns; used to record what a
call to `free_RawTimelineValuesBuf` actually releases. -/
inductive OwnedRegion
  | valueRegion
  | planRegion
  | rateRegion
  deriving DecidableEq, Repr

/-- `init_RawTimelineValuesBuf` (timelinedb.c): zero the metadata, null the
three owned pointers. -/
def init_RawTimelineValuesBuf : RawTimelineValuesBuf :=
  ⟨0, 0, 0, 0, 0, 0, 0, .TR_undefined, none, none, none⟩

/-- `free_RawTimelineValuesBuf` (timelinedb.c): free `valueBuffer`,
`prepared_data_src` and `sample_rate_info` when present, null them, and zero
`nr_of_samples`.  Returns the updated record together with the list of regions
that were actually passed to `free`, in the order the C code frees them. -/
def free_RawTimelineValuesBuf (buf : RawTimelineValuesBuf) :
    RawTimelineValuesBuf × List OwnedRegion :=
  ({ buf with
      valueBuffer := none
      prepared_data_src := none
      sample_rate_info := none
      nr_of_samples := 0 },
   (if buf.valueBuffer.isSome then [OwnedRegion.valueRegion] else []) ++
   (if buf.prepared_data_src.isSome then [OwnedRegion.planRegion] else []) ++
   (if buf.sample_rate_info.isSome then [OwnedRegion.rateRegion] else []))

/-- `alloc_RawTimelineValuesBuf` (timelinedb.c).  Stores the parameters, derives
`bytes_per_sample = (nr_of_channels*bitwidth+7)/8` (stored in a `uint8_t` field,
hence `% 256`), and sets
`buffer_size = nr_of_samples * nr_of_channels * bytes_per_sample` (`uint32_t`
arithmetic, hence `% U32`).  The fresh region is modelled as a zero-filled list
of `buffer_size` elements (the C contents are indeterminate; no verified claim
reads them).  `aligned_alloc` is assumed to succeed (on failure the C process
exits). The `bytealignment` parameter only affects the allocator, not the
metadata, and is dropped. -/
def alloc_RawTimelineValuesBuf (buf : RawTimelineValuesBuf)
    (nr_of_samples nr_of_channels bitwidth : Nat)
    (value_type : RawTimelineValueEnum) : RawTimelineValuesBuf :=
  { buf with
      nr_of_samples := nr_of_samples
      nr_of_channels := nr_of_channels
      bitwidth := bitwidth
      bytes_per_sample := (nr_of_channels * bitwidth + 7) / 8 % 256
      value_type := value_type
      buffer_size := nr_of_samples * nr_of_channels * ((nr_of_channels * bitwidth + 7) / 8 % 256) % U32
      valueBuffer := some (List.replicate
        (nr_of_samples * nr_of_channels * ((nr_of_channels * bitwidth + 7) / 8 % 256) % U32) 0) }

/-- `getBackendsCount` (timelinedb.c). -/
def getBackendsCount : Nat := 2

/-- The two process-wide function tables `gTimelineBackendFunctionsC` and
`gTimelineBackendFunctionsSIMD` (timelinedb_simd.c), identified by name.  In the
portable build both tables point at the same scalar kernels; the claims only
concern which table is installed. -/
inductive BackendTable
  | cBackend
  | simdBackend
  deriving DecidableEq, Repr

/-- `setBackend` (timelinedb.c): `index` is a `uint8_t`; any index above 1
returns -1 and leaves the active table unchanged; 0 installs the C table and 1
the SIMD table.  Result is the C status paired with the table that is active
after the call. -/
def setBackend (index : Nat) (current : BackendTable) : Int × BackendTable :=
  if 1 < index then (-1, current)
  else if index = 0 then (0, BackendTable.cBackend)
  else (0, BackendTable.simdBackend)

/-- Raw sampling frequency `1.0 / (time_step * pow(10.0, time_exponent))` from
`getEngineeringSampleRateFrequency` (timelinedb.c), as an exact rational. -/
def rawFrequency (time_step : Nat) (time_exponent : Int) : ℚ :=
  1 / ((time_step : ℚ) * pow10q time_exponent)

/-- The `while (freq_hz >= 1000.0 && exponent_index < 5)` reduction loop of
`getEngineeringSampleRateFrequency`, with the remaining permitted divisions as
fuel.  Returns the final mantissa and the number of divisions performed (the
index into the Hz/kHz/MHz/GHz/THz/PHz unit table). -/
def engReduce : Nat → ℚ → ℚ × Nat
  | 0, f => (f, 0)
  | fuel + 1, f =>
      if 1000 ≤ f then
        ((engReduce fuel (f / 1000)).1, (engReduce fuel (f / 1000)).2 + 1)
      else (f, 0)

/-- `getEngineeringSampleRateFrequency` (timelinedb.c): mantissa and unit index
(0 = Hz, ..., 5 = PHz). -/
def getEngineeringSampleRateFrequency (time_step : Nat) (time_exponent : Int) :
    ℚ × Nat :=
  engReduce 5 (rawFrequency time_step time_exponent)

/-- `rate_ratio` as computed at the top of `prepare_SampleRateConversion`
(timelinedb.c): `new_sample_rate_hz / (1 / (time_step * pow(10, exponent)))`,
as an exact rational (the C `double` value rounds to the same integers in all
traces proved below). -/
def rate_ratio (time_step : Nat) (time_exponent : Int) (new_rate : Nat) : ℚ :=
  (new_rate : ℚ) / (1 / ((time_step : ℚ) * pow10q time_exponent))

/-- Candidate decimal exponents scanned by `prepare_SampleRateConversion` when
normalising the output time base: 15 down to -15 in steps of 3. -/
def normalizeCandidates : List Int :=
  [15, 12, 9, 6, 3, 0, -3, -6, -9, -12, -15]

/-- The exponent-selection loop of `prepare_SampleRateConversion`: pick the
first exponent whose candidate step lies in `[1, UINT32_MAX]`, and round the
step to the nearest integer (`(uint32_t)(candidate_step + 0.5)`). -/
def normalizeGo (ideal : ℚ) : List Int → Int × Nat
  | [] => (0, 0)
  | e :: rest =>
      if 1 ≤ ideal / pow10q e ∧ ideal / pow10q e ≤ 4294967295 then
        (e, (Int.floor (ideal / pow10q e + 1 / 2)).toNat)
      else normalizeGo ideal rest

/-- Output time base `(time_exponent, time_step)` derived by
`prepare_SampleRateConversion` from the target rate. -/
def normalize_to_exponent (new_rate : Nat) : Int × Nat :=
  normalizeGo (1 / (new_rate : ℚ)) normalizeCandidates

/-- `idx1 = (idx0 + 1 < nr_of_samples) ? idx0 + 1 : idx0` with the `uint32_t`
wraparound of `idx0 + 1` made explicit (it matters only after the clamp
underflows on a 1-sample input). -/
def idxUpper (nr_of_samples idx0 : Nat) : Nat :=
  if (idx0 + 1) % U32 < nr_of_samples then (idx0 + 1) % U32 else idx0

/-- `idx0` of plan entry `i` in `init_InterpInfo` (timelinedb_simd.c):
truncate `original_index = i / (out / in)` and clamp to `nr_of_samples - 2`
(`uint32_t` subtraction).  The C `double` quotient is modelled by the exact
floor `i * in / out`. -/
def interpIdx0 (in_samples out_samples i : Nat) : Nat :=
  if u32sub in_samples 1 ≤ i * in_samples / out_samples then u32sub in_samples 2
  else i * in_samples / out_samples

/-- `idx1` of plan entry `i` in `init_InterpInfo`. -/
def interpIdx1 (in_samples out_samples i : Nat) : Nat :=
  idxUpper in_samples (interpIdx0 in_samples out_samples i)

/-- `frac_fixed` of plan entry `i` in `init_InterpInfo`:
`(uint16_t)((original_index - idx0) * 65536.0)`.  For `in_samples ≥ 2` the
clamped `idx0` never exceeds `original_index`, so the Nat subtraction below is
exact; the final `% 65536` models the out-of-range `double` -> `uint16_t`
conversion as wraparound. -/
def interpFrac (in_samples out_samples i : Nat) : Nat :=
  (i * in_samples - interpIdx0 in_samples out_samples i * out_samples) * 65536
    / out_samples % 65536

/-- Plan entry `i` built by the loop body of `init_InterpInfo`; `inv_frac` is
the `uint16_t` truncation of `0x10000 - frac_fixed`. -/
def mkInterpEntry (in_samples out_samples i : Nat) : SampleInterpInfo :=
  ⟨interpIdx0 in_samples out_samples i,
   interpIdx1 in_samples out_samples i,
   interpFrac in_samples out_samples i,
   (65536 - interpFrac in_samples out_samples i) % 65536⟩

/-- The full interpolation plan written by `init_InterpInfo`: one entry per
output sample. -/
def interpPlan (in_samples out_samples : Nat) : List SampleInterpInfo :=
  (List.range out_samples).map (mkInterpEntry in_samples out_samples)

/-- `init_InterpInfo` (timelinedb_simd.c): fails (returns -1, leaving the plan
pointer NULL) when the channel count is not 8, otherwise stores the plan. -/
def init_InterpInfo (in_samples out_samples ch : Nat) :
    Option (List SampleInterpInfo) :=
  if ch ≠ 8 then none else some (interpPlan in_samples out_samples)

/-- `prepare_SampleRateConversion` (timelinedb.c): derive the ratio and the
output sample count `(uint32_t)(nr_of_samples * rate_ratio)`, normalise the
output time base, store the ratio, allocate the output with the input shape,
and (for the 8x16-bit SIMD layout) precompute the interpolation plan.  The C
returns -1 only when an allocation fails, which the model assumes away. -/
def prepare_SampleRateConversion (input : RawTimelineValuesBuf) (new_rate : Nat)
    (output : RawTimelineValuesBuf) : Int × RawTimelineValuesBuf :=
  (0,
    let ratio := rate_ratio input.time_step input.time_exponent new_rate
    let new_nr := (Int.floor ((input.nr_of_samples : ℚ) * ratio)).toNat
    let o2 := alloc_RawTimelineValuesBuf
      { output with
          time_exponent := (normalize_to_exponent new_rate).1
          time_step := (normalize_to_exponent new_rate).2
          sample_rate_info := some ratio }
      new_nr input.nr_of_channels input.bitwidth input.value_type
    if o2.value_type = RawTimelineValueEnum.TR_SIMD_sint16x8 then
      { o2 with prepared_data_src :=
          init_InterpInfo input.nr_of_samples o2.nr_of_samples input.nr_of_channels }
    else o2)

/-- State of the Bresenham loop in `convert_sample_rate_SIMD_s16x8_bresenham`:
the current lower input index and the fixed-point accumulator (both
`uint32_t`). -/
structure BresState where
  idx0 : Nat
  accum : Nat
  deriving DecidableEq, Repr

/-- One output sample of the Bresenham kernel: linear interpolation
`round((1 - frac) * v0 + frac * v1)` per channel with `frac = accum / scale`,
cast to `int16_t`.  The division is modelled exactly:
`(scale - accum) * v0 + accum * v1` over `scale` (in every trace proved below
the C `double` value of `frac` is dyadic, hence exact). -/
def bresRow (src : Nat → Int) (in_samples scale ch : Nat) (s : BresState) :
    List Int :=
  (List.range ch).map fun j =>
    toInt16 (roundQ (((scale : Int) - (s.accum : Int)) * src (s.idx0 * ch + j)
      + (s.accum : Int) * src (idxUpper in_samples s.idx0 * ch + j)) scale)

/-- The accumulator/index update at the end of each Bresenham iteration,
including the out-of-bounds clamp `idx0 = in_samples - 2; accum = 0` (with
`uint32_t` wraparound when `in_samples < 2`). -/
def bresAdvance (in_samples scale : Nat) (s : BresState) : BresState :=
  let a1 := (s.accum + in_samples) % U32
  let s1 : BresState :=
    if scale ≤ a1 then ⟨(s.idx0 + 1) % U32, a1 - scale⟩ else ⟨s.idx0, a1⟩
  if u32sub in_samples 1 ≤ s1.idx0 then ⟨u32sub in_samples 2, 0⟩ else s1

/-- The output rows written by the Bresenham loop, one list of `ch` channel
values per output sample, starting from state `s` with `k` iterations left. -/
def bresLoop (src : Nat → Int) (in_samples scale ch : Nat) :
    Nat → BresState → List (List Int)
  | 0, _ => []
  | k + 1, s =>
      bresRow src in_samples scale ch s ::
        bresLoop src in_samples scale ch k (bresAdvance in_samples scale s)

/-- `convert_sample_rate_SIMD_s16x8_bresenham` (timelinedb_simd.c): the scalar
Bresenham kernel installed in both backend tables of the portable build.
Returns the C status and the rows written to `output->valueBuffer`
(`dst[i*ch + j]` becomes entry `j` of row `i`). -/
def convert_sample_rate_SIMD_s16x8_bresenham (input : RawTimelineValuesBuf)
    (out_samples : Nat) : Int × List (List Int) :=
  if input.nr_of_channels ≠ 8 then (-1, [])
  else (0, bresLoop (fun k => (input.valueBuffer.getD []).getD k 0)
    input.nr_of_samples out_samples input.nr_of_channels out_samples ⟨0, 0⟩)

/-- `convert_sample_rate_analog_sint8` (timelinedb.c): per-sample floating-point
linear interpolation on int8 channels, modelled with exact rationals.  Returns
the C status and the written rows. -/
def convert_sample_rate_analog_sint8 (input : RawTimelineValuesBuf)
    (ratio : ℚ) (new_nr : Nat) : Int × List (List Int) :=
  (0, (List.range new_nr).map fun i =>
    let orig : ℚ := (i : ℚ) / ratio
    let lower := (Int.floor orig).toNat
    let upper := if lower + 1 < input.nr_of_samples then lower + 1 else lower
    (List.range input.nr_of_channels).map fun chn =>
      let v1 := (input.valueBuffer.getD []).getD (lower * input.nr_of_channels + chn) 0
      let v2 := (input.valueBuffer.getD []).getD (upper * input.nr_of_channels + chn) 0
      toInt8 (roundAway ((1 - (orig - (lower : ℚ))) * v1 + (orig - (lower : ℚ)) * v2)))

/-- `convert_sample_rate` (timelinedb.c): dispatch on the input value type.  The
8x16-bit SIMD layout goes through the process-default C backend table, whose
`convert_sample_rate_s16x8` member is the Bresenham kernel.  Unsupported types
return -1 with nothing written. -/
def convert_sample_rate (input output : RawTimelineValuesBuf) :
    Int × List (List Int) :=
  match input.value_type with
  | RawTimelineValueEnum.TR_analog_sint8 =>
      convert_sample_rate_analog_sint8 input (output.sample_rate_info.getD 0)
        output.nr_of_samples
  | RawTimelineValueEnum.TR_SIMD_sint16x8 =>
      convert_sample_rate_SIMD_s16x8_bresenham input output.nr_of_samples
  | _ => (-1, [])

/-- `getSampleByteOffset` (timelinedb.c): bounds-checked byte offset
`sample * bytes_per_sample + channel * bitwidth / 8`. -/
def getSampleByteOffset (buf : RawTimelineValuesBuf) (sample ch : Nat) :
    Option Nat :=
  if buf.nr_of_samples ≤ sample ∨ buf.nr_of_channels ≤ ch then none
  else some (sample * buf.bytes_per_sample + ch * buf.bitwidth / 8)

/-- `getSampleValue_int8` (timelinedb.c): for 8-bit buffers the byte offset is
also the index into the list of int8 elements. -/
def getSampleValue_int8 (buf : RawTimelineValuesBuf) (sample ch : Nat) :
    Option Int :=
  if buf.nr_of_samples ≤ sample ∨ buf.nr_of_channels ≤ ch ∨ buf.bitwidth ≠ 8 then
    none
  else
    match getSampleByteOffset buf sample ch with
    | none => none
    | some off => some ((buf.valueBuffer.getD []).getD off 0)

/-- `getSampleValue_SIMD_sint16x8` (timelinedb.c): the int16 read at byte
offset `off` is element `off / 2` of the int16 element list. -/
def getSampleValue_SIMD_sint16x8 (buf : RawTimelineValuesBuf) (sample ch : Nat) :
    Option Int :=
  if buf.nr_of_samples ≤ sample ∨ buf.nr_of_channels ≤ ch ∨ buf.bitwidth ≠ 16 then
    none
  else
    match getSampleByteOffset buf sample ch with
    | none => none
    | some off => some ((buf.valueBuffer.getD []).getD (off / 2) 0)

/-- `aggregate_minmax_s8_c` (timelinedb_simd.c) for one bin `[start, stop)`:
per channel, fold min/max seeded with `INT8_MAX` / `INT8_MIN`; a failed sample
access aborts the kernel with -1 (modelled as `none`). -/
def aggregate_minmax_s8_c (input : RawTimelineValuesBuf) (start stop : Nat) :
    Option (List (Int × Int)) :=
  (List.range input.nr_of_channels).mapM fun ch =>
    (List.range' start (stop - start)).foldlM
      (fun (mm : Int × Int) j =>
        (getSampleValue_int8 input j ch).map fun v =>
          (if v < mm.1 then v else mm.1, if mm.2 < v then v else mm.2))
      ((127 : Int), (-128 : Int))

/-- `aggregate_minmax_SIMD_s16x8_c` (timelinedb_simd.c) for one bin: per
channel, fold min/max seeded with `INT16_MAX` / `INT16_MIN`; failed accesses
are silently skipped (the error branch is commented out in the C source). -/
def aggregate_minmax_SIMD_s16x8_c (input : RawTimelineValuesBuf)
    (start stop : Nat) : Option (List (Int × Int)) :=
  some ((List.range input.nr_of_channels).map fun ch =>
    (List.range' start (stop - start)).foldl
      (fun (mm : Int × Int) j =>
        match getSampleValue_SIMD_sint16x8 input j ch with
        | some v => (if v < mm.1 then v else mm.1, if mm.2 < v then v else mm.2)
        | none => mm)
      ((32767 : Int), (-32768 : Int)))

/-- The `(start, end)` range of bin `i` in `aggregate_MinMax` (timelinedb.c):
`start = inOffset + floorf(i * stride)`, `end = inOffset + floorf((i+1) * stride)`
with `stride = in_samples / out_samples` (C `float`, modelled by the exact
floor), then `end` forced above `start` and clamped to the window end. -/
def binBounds (in_samples out_samples inOffset i : Nat) : Nat × Nat :=
  (inOffset + i * in_samples / out_samples,
   if inOffset + in_samples <
       (if inOffset + (i + 1) * in_samples / out_samples ≤
           inOffset + i * in_samples / out_samples then
          inOffset + i * in_samples / out_samples + 1
        else inOffset + (i + 1) * in_samples / out_samples) then
     inOffset + in_samples
   else
     (if inOffset + (i + 1) * in_samples / out_samples ≤
         inOffset + i * in_samples / out_samples then
        inOffset + i * in_samples / out_samples + 1
      else inOffset + (i + 1) * in_samples / out_samples))

/-- `aggregate_MinMax` (timelinedb.c): dispatch on the value type (through the
process-default C backend table), default `inSamples == 0` to the whole buffer,
partition into `out_samples` bins and run the per-bin kernel.  Bin `i` of the
result holds the per-channel `(min, max)` pairs written to
`outMin->valueBuffer[i*ch + c]` / `outMax->valueBuffer[i*ch + c]`; the C
ignores the kernel status, so a failed s8 bin is `none`. -/
def aggregate_MinMax (input : RawTimelineValuesBuf)
    (out_samples inSamples inOffset : Nat) :
    Int × List (Option (List (Int × Int))) :=
  if input.value_type ≠ RawTimelineValueEnum.TR_analog_sint8 ∧
      input.value_type ≠ RawTimelineValueEnum.TR_SIMD_sint16x8 then (-1, [])
  else
    (0, (List.range out_samples).map fun i =>
      let w := if 0 < inSamples then inSamples else input.nr_of_samples
      if input.value_type = RawTimelineValueEnum.TR_analog_sint8 then
        aggregate_minmax_s8_c input (binBounds w out_samples inOffset i).1
          (binBounds w out_samples inOffset i).2
      else
        aggregate_minmax_SIMD_s16x8_c input (binBounds w out_samples inOffset i).1
          (binBounds w out_samples inOffset i).2)

/-! ### Concrete scenario inputs (literal values from the spec scenarios) -/

/-- Scenario S1 input: 1000 samples of the 8x16-bit SIMD layout at 1 MHz,
channel 0 an integer ramp `0, 1, ..., 999`, the seven other lanes zero, stored
as the flat int16 lane list the kernels index. -/
def rampData : List Int :=
  (List.range 8000).map fun k => if k % 8 = 0 then ((k / 8 : Nat) : Int) else 0

/-- Scenario S1 input buffer (allocated shape of the 8x16-bit SIMD layout). -/
def ramp1000 : RawTimelineValuesBuf :=
  ⟨16000, 1000, 1, -6, 8, 16, 16, .TR_SIMD_sint16x8, some rampData, none, none⟩

/-- Scenario S2 input data: channel 0 = 0, 100, 200, 300, other lanes zero. -/
def upsampleData : List Int :=
  [0, 0, 0, 0, 0, 0, 0, 0, 100, 0, 0, 0, 0, 0, 0, 0,
   200, 0, 0, 0, 0, 0, 0, 0, 300, 0, 0, 0, 0, 0, 0, 0]

/-- Scenario S2 input buffer: 4 SIMD samples at 1 MHz. -/
def upsampleBuf : RawTimelineValuesBuf :=
  ⟨64, 4, 1, -6, 8, 16, 16, .TR_SIMD_sint16x8, some upsampleData, none, none⟩

/-- A 1-sample 8x16-bit SIMD buffer at 1 MHz (channel 0 = 7): the smallest
input on which linear interpolation is impossible. -/
def oneSampleBuf : RawTimelineValuesBuf :=
  ⟨16, 1, 1, -6, 8, 16, 16, .TR_SIMD_sint16x8, some [7, 0, 0, 0, 0, 0, 0, 0],
   none, none⟩

/-- Scenario S4 input data: 20 int8 samples, single channel. -/
def minmaxData : List Int :=
  [-5, 7, -3, 2, 4, -1, 8, 0, -8, 3, 6, -2, 1, 9, -9, 5, 7, -7, 4, 0]

/-- Scenario S4 input buffer: 20 samples of `AnalogI8`, one channel. -/
def minmaxBuf : RawTimelineValuesBuf :=
  ⟨20, 20, 1, -6, 1, 8, 1, .TR_analog_sint8, some minmaxData, none, none⟩

/-! ### Helper lemmas -/

/-- `uint32_t` subtraction agrees with Nat subtraction in range. -/
theorem u32sub_eq (a b : Nat) (hb : b ≤ a) (ha : a - b < U32) : u32sub a b = a - b := by
  unfold u32sub
  have h : a + U32 - b = (a - b) + U32 := by omega
  rw [h, Nat.add_mod_right, Nat.mod_eq_of_lt ha]

/-- Rounding a value that is an exact multiple of the scale returns it. -/
theorem roundQ_scale (v : Int) (s : Nat) (hs : 0 < s) : roundQ ((s : Int) * v) s = v := by
  unfold roundQ
  rcases le_or_lt 0 v with hv | hv
  · rw [if_pos (by positivity)]
    have h1 : ((s : Int) * v).toNat = s * v.toNat := by
      rcases Int.eq_ofNat_of_zero_le hv with ⟨n, rfl⟩
      simp [Int.toNat_ofNat]
      omega
    rw [h1]
    have h2 : (2 * (s * v.toNat) + s) / (2 * s) = v.toNat := by
      have e1 : 2 * (s * v.toNat) + s = s * (2 * v.toNat + 1) := by ring
      have e2 : 2 * s = s * 2 := by ring
      rw [e1, e2, Nat.mul_div_mul_left _ _ hs]
      omega
    rw [h2]
    omega
  · rw [if_neg (by nlinarith [Int.natCast_pos.mpr hs])]
    have h1 : ((s : Int) * v).natAbs = s * v.natAbs := by
      rw [Int.natAbs_mul, Int.natAbs_ofNat]
    rw [h1]
    have h2 : (2 * (s * v.natAbs) + s) / (2 * s) = v.natAbs := by
      have e1 : 2 * (s * v.natAbs) + s = s * (2 * v.natAbs + 1) := by ring
      have e2 : 2 * s = s * 2 := by ring
      rw [e1, e2, Nat.mul_div_mul_left _ _ hs]
      omega
    rw [h2]
    omega

/-- The `int16_t` cast is the identity on in-range values. -/
theorem toInt16_eq_self (x : Int) (h1 : -32768 ≤ x) (h2 : x < 32768) : toInt16 x = x := by
  unfold toInt16
  omega

/-! ### Claims C10, C9, C7, C5, C4 -/

/-- Claim C10: `free_RawTimelineValuesBuf` nulls `valueBuffer`,
`prepared_data_src` and `sample_rate_info` and zeroes `nr_of_samples`; a second
call on the result changes no field and frees nothing; the same post-state
holds immediately after `init_RawTimelineValuesBuf`, so free after init is a
no-op on the owned pointers that frees nothing. -/
theorem C10_free_idempotent (buf : RawTimelineValuesBuf) :
    (free_RawTimelineValuesBuf (free_RawTimelineValuesBuf buf).1).1 =
      (free_RawTimelineValuesBuf buf).1 ∧
    (free_RawTimelineValuesBuf (free_RawTimelineValuesBuf buf).1).2 = [] ∧
    (free_RawTimelineValuesBuf buf).1.valueBuffer = none ∧
    (free_RawTimelineValuesBuf buf).1.prepared_data_src = none ∧
    (free_RawTimelineValuesBuf buf).1.sample_rate_info = none ∧
    (free_RawTimelineValuesBuf buf).1.nr_of_samples = 0 ∧
    (free_RawTimelineValuesBuf init_RawTimelineValuesBuf).1 =
      init_RawTimelineValuesBuf ∧
    (free_RawTimelineValuesBuf init_RawTimelineValuesBuf).2 = [] := by
  exact ⟨rfl, rfl, rfl, rfl, rfl, rfl, rfl, rfl⟩

/-- Claim C9: calling `aggregate_MinMax` with `inSamples == 0` is the same as
calling it with `inSamples == input.nr_of_samples`: the zero default makes the
bin partition and the per-bin extremes cover the whole buffer from
`inOffset`. -/
theorem C9_zero_samples_default (input : RawTimelineValuesBuf)
    (out_samples inOffset : Nat) :
    aggregate_MinMax input out_samples 0 inOffset =
      aggregate_MinMax input out_samples input.nr_of_samples inOffset := by
  have hw : (if 0 < (0 : Nat) then (0 : Nat) else input.nr_of_samples) =
      (if 0 < input.nr_of_samples then input.nr_of_samples
       else input.nr_of_samples) := by
    split_ifs <;> omega
  unfold aggregate_MinMax
  simp only [hw]

/-- Claim C7: `getBackendsCount` returns 2; `setBackend 0` installs the scalar
C table, `setBackend 1` the SIMD table; every index at least 2 fails with a
non-zero status and leaves the active table unchanged. -/
theorem C7_backend_selection :
    getBackendsCount = 2 ∧
    (∀ t, setBackend 0 t = (0, BackendTable.cBackend)) ∧
    (∀ t, setBackend 1 t = (0, BackendTable.simdBackend)) ∧
    (∀ index t, 2 ≤ index →
      (setBackend index t).1 ≠ 0 ∧ (setBackend index t).2 = t) := by
  refine ⟨rfl, fun t => rfl, fun t => rfl, fun index t h => ?_⟩
  unfold setBackend
  rw [if_pos (by omega)]
  exact ⟨by simp, rfl⟩

/-- Witness for C7: index 2 is out of range, fails and keeps the C table. -/
theorem C7_backend_selection_witness :
    2 ≤ 2 ∧ (setBackend 2 BackendTable.cBackend).1 ≠ 0 ∧
      (setBackend 2 BackendTable.cBackend).2 = BackendTable.cBackend :=
  ⟨by omega, (C7_backend_selection.2.2.2 2 BackendTable.cBackend (by omega)).1,
   (C7_backend_selection.2.2.2 2 BackendTable.cBackend (by omega)).2⟩

/-- Claim C5 (amended): `alloc_RawTimelineValuesBuf` derives
`bytes_per_sample = ceil(channel_count * bit_width / 8)` (the two inequalities
characterise the ceiling; it equals 16 for the 8x16-bit SIMD layout only
because its preparers pass 8 declared channels of 16 bits), and
`buffer_size = sample_count * channel_count * bytes_per_sample`, which
dominates `sample_count * bytes_per_sample` and equals the length of the
acquired region. -/
theorem C5_alloc_metadata (buf : RawTimelineValuesBuf)
    (samples ch bw : Nat) (vt : RawTimelineValueEnum)
    (hbps : ch * bw + 7 < 2048)
    (hsize : samples * ch * ((ch * bw + 7) / 8) < U32) :
    (alloc_RawTimelineValuesBuf buf samples ch bw vt).bytes_per_sample =
      (ch * bw + 7) / 8 ∧
    ch * bw ≤ 8 * (alloc_RawTimelineValuesBuf buf samples ch bw vt).bytes_per_sample ∧
    8 * (alloc_RawTimelineValuesBuf buf samples ch bw vt).bytes_per_sample <
      ch * bw + 8 ∧
    (alloc_RawTimelineValuesBuf buf samples ch bw vt).buffer_size =
      samples * ch * (alloc_RawTimelineValuesBuf buf samples ch bw vt).bytes_per_sample ∧
    (ch = 8 → bw = 16 →
      (alloc_RawTimelineValuesBuf buf samples ch bw vt).bytes_per_sample = 16) ∧
    (0 < ch →
      samples * (alloc_RawTimelineValuesBuf buf samples ch bw vt).bytes_per_sample ≤
        (alloc_RawTimelineValuesBuf buf samples ch bw vt).buffer_size) ∧
    ((alloc_RawTimelineValuesBuf buf samples ch bw vt).valueBuffer.getD []).length =
      (alloc_RawTimelineValuesBuf buf samples ch bw vt).buffer_size := by
  have hb : (ch * bw + 7) / 8 % 256 = (ch * bw + 7) / 8 :=
    Nat.mod_eq_of_lt (by omega)
  unfold alloc_RawTimelineValuesBuf
  dsimp only
  rw [hb, Nat.mod_eq_of_lt hsize]
  refine ⟨rfl, by omega, by omega, rfl, ?_, ?_, by simp⟩
  · intro h1 h2
    subst h1
    subst h2
    norm_num
  · intro hch
    have h1 : (ch * bw + 7) / 8 ≤ ch * ((ch * bw + 7) / 8) :=
      Nat.le_mul_of_pos_left _ hch
    calc samples * ((ch * bw + 7) / 8)
        ≤ samples * (ch * ((ch * bw + 7) / 8)) := Nat.mul_le_mul_left _ h1
      _ = samples * ch * ((ch * bw + 7) / 8) := by ring

/-- Witness for C5 at the SIMD preparer shape (4 samples, 8 channels, 16
bits). -/
theorem C5_alloc_metadata_witness :
    8 * 16 + 7 < 2048 ∧ 4 * 8 * ((8 * 16 + 7) / 8) < U32 ∧
    (alloc_RawTimelineValuesBuf init_RawTimelineValuesBuf 4 8 16
      RawTimelineValueEnum.TR_SIMD_sint16x8).bytes_per_sample = (8 * 16 + 7) / 8 :=
  ⟨by decide, by decide,
   (C5_alloc_metadata init_RawTimelineValuesBuf 4 8 16
     RawTimelineValueEnum.TR_SIMD_sint16x8 (by decide) (by decide)).1⟩

/-- Counterexample for C5 as stated: with 2 samples of 2 int8 channels the code
sets `buffer_size = 2 * 2 * 2 = 8`, not `sample_count * bytes_per_sample = 4`;
and a 4-channel 16-bit SIMD allocation gets stride 8, not the claimed fixed
16. -/
theorem C5_counterexample :
    (alloc_RawTimelineValuesBuf init_RawTimelineValuesBuf 2 2 8
        RawTimelineValueEnum.TR_analog_sint8).buffer_size ≠
      (alloc_RawTimelineValuesBuf init_RawTimelineValuesBuf 2 2 8
        RawTimelineValueEnum.TR_analog_sint8).nr_of_samples *
      (alloc_RawTimelineValuesBuf init_RawTimelineValuesBuf 2 2 8
        RawTimelineValueEnum.TR_analog_sint8).bytes_per_sample ∧
    (alloc_RawTimelineValuesBuf init_RawTimelineValuesBuf 4 4 16
        RawTimelineValueEnum.TR_SIMD_sint16x8).bytes_per_sample ≠ 16 := by
  decide

/-- Counterexample for C4 as stated: on the S4 input the code's bin 1 covers
samples 5..9 whose minimum is -8, so `outMin` is not `[-5, -1, -9, -7]`. -/
theorem C4_counterexample :
    (aggregate_MinMax minmaxBuf 4 20 0).2.map (fun b => (b.getD []).map Prod.fst) ≠
      [[-5], [-1], [-9], [-7]] := by
  decide

/-- Claim C4 (amended): `aggregate_MinMax` partitions the window with
`start = floor(i * stride)`, `end = floor((i+1) * stride)` (forced above
`start`, clamped to the window end), here `(0,5), (5,10), (10,15), (15,20)`,
and on the S4 input writes `outMin = [-5, -8, -9, -7]` and
`outMax = [7, 8, 9, 7]` (bin 1 contains the -8 at index 8). -/
theorem C4_minmax_scenario :
    binBounds 20 4 0 0 = (0, 5) ∧ binBounds 20 4 0 1 = (5, 10) ∧
    binBounds 20 4 0 2 = (10, 15) ∧ binBounds 20 4 0 3 = (15, 20) ∧
    (aggregate_MinMax minmaxBuf 4 20 0).1 = 0 ∧
    (aggregate_MinMax minmaxBuf 4 20 0).2.map (fun b => (b.getD []).map Prod.fst) =
      [[-5], [-8], [-9], [-7]] ∧
    (aggregate_MinMax minmaxBuf 4 20 0).2.map (fun b => (b.getD []).map Prod.snd) =
      [[7], [8], [9], [7]] := by
  decide

/-! ### Claim C8: engineering frequency -/

/-- If the mantissa entering the reduction loop is at least 1, it either ends
in `[1, 1000)` or all the fuel is consumed (the unit is capped). -/
theorem engReduce_bounds (fuel : Nat) (f : ℚ) (hf : 1 ≤ f) :
    (1 ≤ (engReduce fuel f).1 ∧ (engReduce fuel f).1 < 1000) ∨
      (engReduce fuel f).2 = fuel := by
  induction fuel generalizing f with
  | zero => right; rfl
  | succ n ih =>
      by_cases h : (1000 : ℚ) ≤ f
      · have h1 : 1 ≤ f / 1000 := by
          rw [le_div_iff₀ (by norm_num)]
          linarith
        rcases ih (f / 1000) h1 with hgood | hcap
        · left
          simpa [engReduce, h] using hgood
        · right
          simp [engReduce, h, hcap]
      · left
        refine ⟨by simpa [engReduce, h] using hf, ?_⟩
        have h2 : f < 1000 := not_le.mp h
        simpa [engReduce, h] using h2

/-- Claim C8 (amended): whenever the raw frequency is at least 1 Hz, the
engineering mantissa lies in `[1, 1000)` unless the unit is capped at PHz
(index 5); when the raw frequency is below 1 Hz the loop never divides, the
unit stays Hz (index 0) and the mantissa is the raw frequency itself, below
1. -/
theorem C8_engineering_frequency (time_step : Nat) (time_exponent : Int) :
    (1 ≤ rawFrequency time_step time_exponent →
      ((1 ≤ (getEngineeringSampleRateFrequency time_step time_exponent).1 ∧
        (getEngineeringSampleRateFrequency time_step time_exponent).1 < 1000) ∨
       (getEngineeringSampleRateFrequency time_step time_exponent).2 = 5)) ∧
    (rawFrequency time_step time_exponent < 1 →
      getEngineeringSampleRateFrequency time_step time_exponent =
        (rawFrequency time_step time_exponent, 0)) := by
  constructor
  · intro h
    exact engReduce_bounds 5 _ h
  · intro h
    have h2 : ¬ (1000 : ℚ) ≤ rawFrequency time_step time_exponent := by
      intro hc
      linarith
    unfold getEngineeringSampleRateFrequency
    simp [engReduce, h2]

/-- Witness for C8 at 1 Hz (`time_step = 1`, `time_exponent = 0`). -/
theorem C8_engineering_frequency_witness :
    1 ≤ rawFrequency 1 0 ∧
    ((1 ≤ (getEngineeringSampleRateFrequency 1 0).1 ∧
      (getEngineeringSampleRateFrequency 1 0).1 < 1000) ∨
     (getEngineeringSampleRateFrequency 1 0).2 = 5) := by
  have h : (1 : ℚ) ≤ rawFrequency 1 0 := by
    norm_num [rawFrequency, pow10q]
  exact ⟨h, (C8_engineering_frequency 1 0).1 h⟩

/-- Counterexample for C8 as stated: `time_step = 2`, `time_exponent = 0` has
raw frequency 0.5 Hz; the loop only divides, so the returned mantissa is 0.5,
outside `[1, 1000)`, while the unit is Hz, not the capped PHz. -/
theorem C8_counterexample :
    (getEngineeringSampleRateFrequency 2 0).1 < 1 ∧
    (getEngineeringSampleRateFrequency 2 0).2 ≠ 5 := by
  have h : rawFrequency 2 0 = 1 / 2 := by
    norm_num [rawFrequency, pow10q]
  have h2 : getEngineeringSampleRateFrequency 2 0 = (1 / 2, 0) := by
    unfold getEngineeringSampleRateFrequency
    rw [h]
    norm_num [engReduce]
  rw [h2]
  norm_num

/-! ### Shared lemmas about prepare_SampleRateConversion and convert dispatch -/

/-- `prepare_SampleRateConversion` always reports success in the model (the C
returns -1 only on allocation failure). -/
theorem prepare_status (input : RawTimelineValuesBuf) (new_rate : Nat)
    (output : RawTimelineValuesBuf) :
    (prepare_SampleRateConversion input new_rate output).1 = 0 := rfl

/-- The output sample count set by `prepare_SampleRateConversion` is the
truncated product of the input sample count and the rate ratio. -/
theorem prepare_nr_of_samples (input : RawTimelineValuesBuf) (new_rate : Nat)
    (output : RawTimelineValuesBuf) :
    (prepare_SampleRateConversion input new_rate output).2.nr_of_samples =
      (Int.floor ((input.nr_of_samples : ℚ) *
        rate_ratio input.time_step input.time_exponent new_rate)).toNat := by
  unfold prepare_SampleRateConversion alloc_RawTimelineValuesBuf
  dsimp only
  split_ifs <;> rfl

/-- For the 8x16-bit SIMD layout, `prepare_SampleRateConversion` stores the
plan built by `init_InterpInfo` for the computed output length. -/
theorem prepare_prepared_data (input : RawTimelineValuesBuf) (new_rate : Nat)
    (output : RawTimelineValuesBuf)
    (h : input.value_type = RawTimelineValueEnum.TR_SIMD_sint16x8) :
    (prepare_SampleRateConversion input new_rate output).2.prepared_data_src =
      init_InterpInfo input.nr_of_samples
        (prepare_SampleRateConversion input new_rate output).2.nr_of_samples
        input.nr_of_channels := by
  unfold prepare_SampleRateConversion alloc_RawTimelineValuesBuf
  dsimp only
  rw [h]
  rfl

/-- `convert_sample_rate` on an 8x16-bit SIMD input runs the Bresenham kernel
for the prepared output sample count. -/
theorem convert_dispatch_simd (input output : RawTimelineValuesBuf)
    (h : input.value_type = RawTimelineValueEnum.TR_SIMD_sint16x8) :
    convert_sample_rate input output =
      convert_sample_rate_SIMD_s16x8_bresenham input output.nr_of_samples := by
  unfold convert_sample_rate
  rw [h]

/-- The rate ratio of a 1 MHz buffer resampled to 1 MHz is exactly 1. -/
theorem rate_ratio_identity : rate_ratio 1 (-6) 1000000 = 1 := by
  norm_num [rate_ratio, pow10q, show Int.toNat 6 = 6 from rfl]

/-- The rate ratio of a 1 MHz buffer resampled to 2 MHz is exactly 2. -/
theorem rate_ratio_double : rate_ratio 1 (-6) 2000000 = 2 := by
  norm_num [rate_ratio, pow10q, show Int.toNat 6 = 6 from rfl]

/-- Scenario S1: preparing the 1000-sample 1 MHz ramp for 1 MHz gives 1000
output samples. -/
theorem ramp_count :
    (prepare_SampleRateConversion ramp1000 1000000
      init_RawTimelineValuesBuf).2.nr_of_samples = 1000 := by
  rw [prepare_nr_of_samples]
  have h1 : ((ramp1000.nr_of_samples : ℚ) *
      rate_ratio ramp1000.time_step ramp1000.time_exponent 1000000) =
      ((1000 : ℤ) : ℚ) := by
    rw [show ramp1000.time_step = 1 from rfl, show ramp1000.time_exponent = -6 from rfl,
      rate_ratio_identity]
    norm_num [ramp1000]
  rw [h1, Int.floor_intCast]
  rfl

/-- Scenario S2: preparing the 4-sample 1 MHz buffer for 2 MHz gives 8 output
samples. -/
theorem upsample_count :
    (prepare_SampleRateConversion upsampleBuf 2000000
      init_RawTimelineValuesBuf).2.nr_of_samples = 8 := by
  rw [prepare_nr_of_samples]
  have h1 : ((upsampleBuf.nr_of_samples : ℚ) *
      rate_ratio upsampleBuf.time_step upsampleBuf.time_exponent 2000000) =
      ((8 : ℤ) : ℚ) := by
    rw [show upsampleBuf.time_step = 1 from rfl, show upsampleBuf.time_exponent = -6 from rfl,
      rate_ratio_double]
    norm_num [upsampleBuf]
  rw [h1, Int.floor_intCast]
  rfl

/-- The 1-sample buffer prepared for 2 MHz gets 2 output samples. -/
theorem one_sample_count :
    (prepare_SampleRateConversion oneSampleBuf 2000000
      init_RawTimelineValuesBuf).2.nr_of_samples = 2 := by
  rw [prepare_nr_of_samples]
  have h1 : ((oneSampleBuf.nr_of_samples : ℚ) *
      rate_ratio oneSampleBuf.time_step oneSampleBuf.time_exponent 2000000) =
      ((2 : ℤ) : ℚ) := by
    rw [show oneSampleBuf.time_step = 1 from rfl, show oneSampleBuf.time_exponent = -6 from rfl,
      rate_ratio_double]
    norm_num [oneSampleBuf]
  rw [h1, Int.floor_intCast]
  rfl

/-! ### Claim C3: interpolation-plan invariant -/

/-- Claim C3 (amended): for an input with at least 2 samples, every plan entry
satisfies `idx0 + 1 ≤ idx1 + 1 ≤ nr_of_samples`, and the two u16 fraction
fields sum to 0x10000 exactly when `frac_q16 ≠ 0`; entries whose fraction is 0
store `inv_frac_q16 = 0` (the u16 field wraps), so the sum is only guaranteed
modulo 2^16. -/
theorem C3_plan_invariant (in_samples out_samples : Nat)
    (hn : 2 ≤ in_samples) (h32 : in_samples < U32)
    (e : SampleInterpInfo) (he : e ∈ interpPlan in_samples out_samples) :
    e.idx0 + 1 ≤ e.idx1 + 1 ∧ e.idx1 + 1 ≤ in_samples ∧
    (e.frac + e.inv_frac) % 65536 = 0 ∧
    (e.frac ≠ 0 → e.frac + e.inv_frac = 65536) ∧
    (e.frac = 0 → e.inv_frac = 0) := by
  rcases List.mem_map.mp he with ⟨i, hi, rfl⟩
  have hs1 : u32sub in_samples 1 = in_samples - 1 :=
    u32sub_eq _ _ (by omega) (by omega)
  have hs2 : u32sub in_samples 2 = in_samples - 2 :=
    u32sub_eq _ _ (by omega) (by omega)
  have hidx0 : interpIdx0 in_samples out_samples i ≤ in_samples - 2 := by
    unfold interpIdx0
    rw [hs1, hs2]
    split_ifs with h
    · omega
    · omega
  have hidx1 : interpIdx1 in_samples out_samples i =
      interpIdx0 in_samples out_samples i + 1 := by
    unfold interpIdx1 idxUpper
    have hmod : (interpIdx0 in_samples out_samples i + 1) % U32 =
        interpIdx0 in_samples out_samples i + 1 := by
      apply Nat.mod_eq_of_lt
      have := hidx0
      unfold U32 at h32 ⊢
      omega
    rw [hmod, if_pos (by omega)]
  have hfrac : interpFrac in_samples out_samples i < 65536 :=
    Nat.mod_lt _ (by omega)
  unfold mkInterpEntry
  refine ⟨?_, ?_, ?_, ?_, ?_⟩
  · dsimp only
    omega
  · dsimp only
    omega
  · dsimp only
    omega
  · dsimp only
    omega
  · dsimp only
    omega

/-- Witness for C3: the 2-sample, 1-output plan has the single entry
`(0, 1, 0, 0)` and satisfies the amended invariant. -/
theorem C3_plan_invariant_witness :
    2 ≤ 2 ∧ (2 : Nat) < U32 ∧
    (⟨0, 1, 0, 0⟩ : SampleInterpInfo) ∈ interpPlan 2 1 ∧
    ((⟨0, 1, 0, 0⟩ : SampleInterpInfo).idx0 + 1 ≤
        (⟨0, 1, 0, 0⟩ : SampleInterpInfo).idx1 + 1 ∧
      (⟨0, 1, 0, 0⟩ : SampleInterpInfo).idx1 + 1 ≤ 2 ∧
      ((⟨0, 1, 0, 0⟩ : SampleInterpInfo).frac +
        (⟨0, 1, 0, 0⟩ : SampleInterpInfo).inv_frac) % 65536 = 0 ∧
      ((⟨0, 1, 0, 0⟩ : SampleInterpInfo).frac ≠ 0 →
        (⟨0, 1, 0, 0⟩ : SampleInterpInfo).frac +
          (⟨0, 1, 0, 0⟩ : SampleInterpInfo).inv_frac = 65536) ∧
      ((⟨0, 1, 0, 0⟩ : SampleInterpInfo).frac = 0 →
        (⟨0, 1, 0, 0⟩ : SampleInterpInfo).inv_frac = 0)) :=
  ⟨by omega, by decide, by decide,
   C3_plan_invariant 2 1 (by omega) (by decide) ⟨0, 1, 0, 0⟩ (by decide)⟩

/-- Counterexample for C3 as stated: in the plan `prepare_SampleRateConversion`
stores for the 4-sample buffer upsampled to 2 MHz, entry 0 has
`frac_q16 = 0` and `inv_frac_q16 = 0` (the u16 store of 0x10000 wraps to 0),
so its fields do not sum to 0x10000. -/
theorem C3_counterexample :
    ¬ ∀ e ∈ ((prepare_SampleRateConversion upsampleBuf 2000000
        init_RawTimelineValuesBuf).2.prepared_data_src).getD [],
      e.frac + e.inv_frac = 65536 := by
  have hplan : (prepare_SampleRateConversion upsampleBuf 2000000
      init_RawTimelineValuesBuf).2.prepared_data_src = some (interpPlan 4 8) := by
    rw [prepare_prepared_data _ _ _ rfl, upsample_count]
    rfl
  rw [hplan]
  decide

/-! ### Claims C2 and C6: concrete runs of the Bresenham conversion -/

/-- Claim C2 (code behaviour): the 2x upsample of `[0, 100, 200, 300]` prepares
8 output samples, but the Bresenham kernel writes channel 0 as
`[0, 50, 100, 150, 200, 250, 200, 250]`: when the clamp fires it resets both
`idx0` and the accumulator, stepping the read position back a full sample, so
the last two outputs repeat 200 and 250 instead of reaching 300, and the
claimed `[0, 50, 100, 150, 200, 250, 300, 300]` is missed by 100 at index 6,
far outside the +-1 tolerance. -/
theorem C2_upsample_code_behavior :
    (prepare_SampleRateConversion upsampleBuf 2000000
      init_RawTimelineValuesBuf).2.nr_of_samples = 8 ∧
    (convert_sample_rate upsampleBuf
      (prepare_SampleRateConversion upsampleBuf 2000000
        init_RawTimelineValuesBuf).2).1 = 0 ∧
    ((convert_sample_rate upsampleBuf
      (prepare_SampleRateConversion upsampleBuf 2000000
        init_RawTimelineValuesBuf).2).2.map (fun r => r.getD 0 0)) =
      [0, 50, 100, 150, 200, 250, 200, 250] ∧
    ¬ ∀ i < 8,
      (((convert_sample_rate upsampleBuf
        (prepare_SampleRateConversion upsampleBuf 2000000
          init_RawTimelineValuesBuf).2).2.map (fun r => r.getD 0 0)).getD i 0 -
        ([0, 50, 100, 150, 200, 250, 300, 300] : List Int).getD i 0).natAbs ≤ 1 := by
  rw [convert_dispatch_simd _ _ rfl, upsample_count]
  refine ⟨rfl, by decide, by decide, by decide⟩

/-- Claim C6 (code behaviour): no part of the conversion pipeline checks for
fewer than 2 input samples.  On a 1-sample SIMD buffer upsampled to 2 MHz both
`prepare_SampleRateConversion` and `convert_sample_rate` return 0 (success),
the kernel writes both output samples (the first copies input sample 0), and
the out-of-bounds clamp underflows `idx0` to 2^32 - 1, so the second output is
produced from a wild read (0 in the model). -/
theorem C6_no_empty_input_check :
    oneSampleBuf.nr_of_samples < 2 ∧
    (prepare_SampleRateConversion oneSampleBuf 2000000
      init_RawTimelineValuesBuf).1 = 0 ∧
    (convert_sample_rate oneSampleBuf
      (prepare_SampleRateConversion oneSampleBuf 2000000
        init_RawTimelineValuesBuf).2).1 = 0 ∧
    (convert_sample_rate oneSampleBuf
      (prepare_SampleRateConversion oneSampleBuf 2000000
        init_RawTimelineValuesBuf).2).2 =
      [[7, 0, 0, 0, 0, 0, 0, 0], [0, 0, 0, 0, 0, 0, 0, 0]] ∧
    bresAdvance oneSampleBuf.nr_of_samples 2 ⟨0, 0⟩ =
      ⟨4294967295, 0⟩ := by
  rw [convert_dispatch_simd _ _ rfl, one_sample_count]
  refine ⟨by decide, rfl, by decide, by decide, by decide⟩

/-! ### Claim C1: identity resampling of the 1000-sample ramp -/

/-- With `step = scale = n` (identity resampling) the Bresenham advance maps
the trace state `(min i (n-2), 0)` to `(min (i+1) (n-2), 0)`: the accumulator
returns to 0 on every step and the index walks forward until the clamp pins it
at `n - 2`. -/
theorem bresAdvance_identity (n i : Nat) (hn : 2 ≤ n) (h32 : n < U32) :
    bresAdvance n n ⟨min i (n - 2), 0⟩ = ⟨min (i + 1) (n - 2), 0⟩ := by
  have hs1 : u32sub n 1 = n - 1 := u32sub_eq _ _ (by omega) (by omega)
  have hs2 : u32sub n 2 = n - 2 := u32sub_eq _ _ (by omega) (by omega)
  have hmod1 : (0 + n) % U32 = n := by
    rw [Nat.zero_add]
    exact Nat.mod_eq_of_lt h32
  have hmod2 : (min i (n - 2) + 1) % U32 = min i (n - 2) + 1 := by
    apply Nat.mod_eq_of_lt
    have h1 : min i (n - 2) ≤ n - 2 := Nat.min_le_right _ _
    omega
  unfold bresAdvance
  dsimp only
  rw [hmod1, if_pos (le_refl n), hmod2, Nat.sub_self, hs1, hs2]
  dsimp only
  split_ifs with h
  · rw [BresState.mk.injEq]
    exact ⟨by omega, rfl⟩
  · rw [BresState.mk.injEq]
    exact ⟨by omega, rfl⟩

/-- A Bresenham output row computed with accumulator 0 copies input sample
`idx0` (the interpolation coefficient of the upper sample is 0). -/
theorem bresRow_identity (src : Nat → Int) (n scl m : Nat) (hscl : 0 < scl)
    (hsrc : ∀ k, -32768 ≤ src k ∧ src k < 32768) :
    bresRow src n scl 8 ⟨m, 0⟩ = (List.range 8).map (fun j => src (m * 8 + j)) := by
  unfold bresRow
  dsimp only
  congr 1
  funext j
  rw [Nat.cast_zero, sub_zero, zero_mul, add_zero, roundQ_scale _ _ hscl,
    toInt16_eq_self _ (hsrc _).1 (hsrc _).2]

/-- The identity trace of the Bresenham loop: starting at `(min i (n-2), 0)`,
output row `t` copies input sample `min (i+t) (n-2)`.  In this trace the C
`double` fraction is exactly 0 at every step, so the rational model coincides
with the code on every input. -/
theorem bresLoop_identity (src : Nat → Int) (n : Nat) (hn : 2 ≤ n)
    (h32 : n < U32) (hsrc : ∀ k, -32768 ≤ src k ∧ src k < 32768) (k : Nat) :
    ∀ i, bresLoop src n n 8 k ⟨min i (n - 2), 0⟩ =
      (List.range k).map
        (fun t => (List.range 8).map (fun j => src (min (i + t) (n - 2) * 8 + j))) := by
  induction k with
  | zero => intro i; rfl
  | succ k ih =>
      intro i
      rw [show bresLoop src n n 8 (k + 1) ⟨min i (n - 2), 0⟩ =
          bresRow src n n 8 ⟨min i (n - 2), 0⟩ ::
            bresLoop src n n 8 k (bresAdvance n n ⟨min i (n - 2), 0⟩) from rfl]
      rw [bresAdvance_identity n i hn h32, ih (i + 1),
        bresRow_identity src n n (min i (n - 2)) (by omega) hsrc]
      rw [show List.range (k + 1) = 0 :: (List.range k).map Nat.succ from
        List.range_succ_eq_map k]
      rw [List.map_cons, List.map_map]
      have htail : ∀ t ∈ List.range k,
          (List.range 8).map (fun j => src (min (i + 1 + t) (n - 2) * 8 + j)) =
          ((fun t => (List.range 8).map
            (fun j => src (min (i + t) (n - 2) * 8 + j))) ∘ Nat.succ) t := by
        intro t _
        dsimp only [Function.comp]
        rw [show i + 1 + t = i + (t + 1) from by omega]
      rw [List.map_congr_left htail]
      simp only [Nat.add_zero]

/-- Pointwise description of the ramp data: lane 0 of sample `s` holds `s`;
all other lanes, and out-of-range reads, are 0. -/
theorem rampData_getD (k : Nat) :
    rampData.getD k 0 = if k < 8000 ∧ k % 8 = 0 then ((k / 8 : Nat) : Int) else 0 := by
  unfold rampData
  rcases Nat.lt_or_ge k 8000 with h | h
  · rw [List.getD_eq_getElem?_getD, List.getElem?_map, List.getElem?_range h]
    by_cases h2 : k % 8 = 0
    · simp [h, h2]
    · simp [h, h2]
  · rw [List.getD_eq_getElem?_getD, List.getElem?_eq_none (by simpa using h)]
    simp [show ¬(k < 8000 ∧ k % 8 = 0) from by omega]

/-- Every ramp value is a valid int16 (it is 0 or a sample index below 1000). -/
theorem rampData_range (k : Nat) :
    -32768 ≤ rampData.getD k 0 ∧ rampData.getD k 0 < 32768 := by
  rw [rampData_getD]
  split_ifs with h
  · constructor <;> omega
  · constructor <;> omega

attribute [irreducible] rampData

/-- Head of a mapped 8-element range: reading channel 0 of a row. -/
theorem getD_zero_map_range8 (f : Nat → Int) :
    ((List.range 8).map f).getD 0 0 = f 0 := rfl

set_option maxRecDepth 4000 in
/-- The rows written by the Bresenham kernel on the identity run of the ramp:
row `t` copies input sample `min t 998`. -/
theorem ramp_rows : (convert_sample_rate_SIMD_s16x8_bresenham ramp1000 1000).2 =
    (List.range 1000).map
      (fun t => (List.range 8).map
        (fun j => rampData.getD (min t 998 * 8 + j) 0)) := by
  unfold convert_sample_rate_SIMD_s16x8_bresenham
  rw [if_neg (by decide)]
  dsimp only
  rw [show ramp1000.nr_of_samples = 1000 from rfl,
    show ramp1000.nr_of_channels = 8 from rfl,
    show (⟨0, 0⟩ : BresState) = ⟨min 0 (1000 - 2), 0⟩ from rfl,
    show ramp1000.valueBuffer.getD [] = rampData from rfl,
    bresLoop_identity _ 1000 (by omega) (by norm_num [U32])
      (fun k => rampData_range k) 1000 0]
  apply List.map_congr_left
  intro t _
  simp only [Nat.zero_add, show (1000 - 2 : Nat) = 998 from rfl]

set_option maxRecDepth 4000 in
/-- Claim C1 (code behaviour): identity resampling of the 1000-sample ramp
prepares 1000 output samples and the conversion reports success, but the
Bresenham clamp resets the accumulator when `idx0` reaches 999, so channel 0 of
the output is `min i 998` rather than `i`: samples 0..998 are reproduced
exactly and the final sample repeats input sample 998, so the output is not
equal to the input sample-for-sample. -/
theorem C1_identity_resampling_code_behavior :
    (prepare_SampleRateConversion ramp1000 1000000 init_RawTimelineValuesBuf).1 = 0 ∧
    (prepare_SampleRateConversion ramp1000 1000000
      init_RawTimelineValuesBuf).2.nr_of_samples = 1000 ∧
    (convert_sample_rate ramp1000
      (prepare_SampleRateConversion ramp1000 1000000
        init_RawTimelineValuesBuf).2).1 = 0 ∧
    ((convert_sample_rate ramp1000
      (prepare_SampleRateConversion ramp1000 1000000
        init_RawTimelineValuesBuf).2).2.map (fun r => r.getD 0 0)) =
      (List.range 1000).map (fun i => ((min i 998 : Nat) : Int)) ∧
    ((convert_sample_rate ramp1000
      (prepare_SampleRateConversion ramp1000 1000000
        init_RawTimelineValuesBuf).2).2.map (fun r => r.getD 0 0)) ≠
      (List.range 1000).map (fun i => ((i : Nat) : Int)) := by
  rw [convert_dispatch_simd _ _ rfl, ramp_count]
  have hch : ((convert_sample_rate_SIMD_s16x8_bresenham ramp1000 1000).2.map
      (fun r => r.getD 0 0)) =
      (List.range 1000).map (fun i => ((min i 998 : Nat) : Int)) := by
    rw [ramp_rows, List.map_map]
    apply List.map_congr_left
    intro t _
    dsimp only [Function.comp]
    rw [getD_zero_map_range8]
    show rampData.getD (min t 998 * 8 + 0) 0 = ((min t 998 : Nat) : Int)
    rw [Nat.add_zero, rampData_getD, if_pos ⟨by omega, by omega⟩]
    congr 1
    omega
  refine ⟨rfl, rfl, rfl, hch, ?_⟩
  rw [hch]
  intro heq
  have h999 := congrArg (fun l => l.getD 999 0) heq
  simp only [List.getD_eq_getElem?_getD, List.getElem?_map,
    List.getElem?_range (show (999 : Nat) < 1000 from by omega), Option.map_some',
    Option.getD_some] at h999
  omega
